import Mathlib

/-!
Verification of the AI Mood Board backend (src/backend/main.py).

The Python source is shallowly embedded below.  External collaborators
(the Ollama classifier HTTP call, the Stable Diffusion pipeline, the
random number generator) are modelled as explicit parameters; the local
code (string processing, tables, fallback control flow) is translated
function by function.  Strings are modelled over their character lists;
character-level operations (`lower`, `upper`, `split`, `\w+`
tokenisation) are the ASCII behaviour of the corresponding Python
operations, which agree with Python on all inputs used by the concrete
scenarios in the claims.
-/

namespace MoodBoard

/-! ## Character and string helpers (models of Python str primitives) -/

/-- ASCII whitespace, as split by Python `str.split()` / stripped by `int()`. -/
def wsChar (c : Char) : Bool :=
  c = ' ' || c = '\t' || c = '\n' || c = '\r' || c = '\x0b' || c = '\x0c'

/-- The 26 lower/upper ASCII letter pairs. -/
def azPairs : List (Char × Char) :=
  "abcdefghijklmnopqrstuvwxyz".data.zip "ABCDEFGHIJKLMNOPQRSTUVWXYZ".data

/-- ASCII model of Python `str.upper` on a single character. -/
def upperChar (c : Char) : Char :=
  match azPairs.find? (fun p => p.1 == c) with
  | some p => p.2
  | none => c

/-- ASCII model of Python `str.lower` on a single character. -/
def lowerChar (c : Char) : Char :=
  match azPairs.find? (fun p => p.2 == c) with
  | some p => p.1
  | none => c

/-- Model of Python `str.upper`. -/
def pyUpper (s : String) : String := String.mk (s.data.map upperChar)

/-- Model of Python `str.lower`. -/
def pyLower (s : String) : String := String.mk (s.data.map lowerChar)

/-- Does `hay` start with `needle`? -/
def startsWithL : List Char → List Char → Bool
  | _, [] => true
  | [], _ :: _ => false
  | a :: as, b :: bs => a = b && startsWithL as bs

/-- Contiguous-substring test: model of Python `needle in hay` on strings. -/
def hasSub : List Char → List Char → Bool
  | [], needle => needle.isEmpty
  | c :: rest, needle => startsWithL (c :: rest) needle || hasSub rest needle

/-- Split a character list into the maximal runs of characters satisfying `p`
(accumulator holds the current run, reversed). -/
def splitRunsAux (p : Char → Bool) : List Char → List Char → List String
  | [], cur => if cur.isEmpty then [] else [String.mk cur.reverse]
  | c :: rest, cur =>
      if p c then splitRunsAux p rest (c :: cur)
      else if cur.isEmpty then splitRunsAux p rest []
      else String.mk cur.reverse :: splitRunsAux p rest []

/-- Model of Python `str.split()` (split on whitespace runs, dropping empties). -/
def splitWsTokens (s : String) : List String :=
  splitRunsAux (fun c => !(wsChar c)) s.data []

/-- A `\w` word character (ASCII model of the regex class used by `re.findall`). -/
def isWordChar (c : Char) : Bool := c.isAlphanum || c = '_'

/-- Model of Python `re.findall(r'\b\w+\b', s)`: the maximal runs of word
characters, in order. -/
def reWords (s : String) : List String := splitRunsAux isWordChar s.data []

/-- Index of the first occurrence of `c` in a character list. -/
def findIdxA (c : Char) : List Char → Option Nat
  | [] => none
  | a :: rest => if a = c then some 0 else (findIdxA c rest).map (· + 1)

/-- Index of the last occurrence of `c` in a character list. -/
def lastIdxA (c : Char) : List Char → Option Nat
  | [] => none
  | a :: rest =>
      match lastIdxA c rest with
      | some n => some (n + 1)
      | none => if a = c then some 0 else none

/-- Model of Python `s.find(c)` for a single character: index or `-1`. -/
def pyFindChar (s : String) (c : Char) : Int :=
  match findIdxA c s.data with
  | some n => (n : Int)
  | none => -1

/-- Model of Python `s.rfind(c)` for a single character: index or `-1`. -/
def pyRfindChar (s : String) (c : Char) : Int :=
  match lastIdxA c s.data with
  | some n => (n : Int)
  | none => -1

/-- Model of the Python slice `s[a:b]` for non-negative bounds. -/
def pySliceNat (s : String) (a b : Nat) : String :=
  String.mk ((s.data.take b).drop a)

/-- First-match association-list lookup: model of a Python dict lookup for the
tables in this file (whose keys are pairwise distinct). -/
def lookupFirst {α : Type} (l : List (String × α)) (k : String) : Option α :=
  (l.find? (fun p => p.1 == k)).map (·.2)

/-- Model of Python `random.choice(l)`: an externally supplied draw `r`
selects index `r % l.length`.  `random.choice` draws this index uniformly;
the theorems below quantify over every possible draw. -/
def pyChoice {α : Type} (l : List α) (d : α) (r : Nat) : α :=
  l.getD (r % l.length) d

/-! ## JSON model

`json.loads` is Python standard library, external to the repository.  The
responses consumed by `analyze_mood_with_ai` are flat JSON objects whose
values are strings or arrays of strings, so the model below parses exactly
that fragment (no escape sequences, no nesting, no numbers) and fails on
everything else.  All universally quantified theorems about
`analyze_mood_with_ai` quantify over an arbitrary parse function, so they
do not depend on this model; it is used only to build concrete runs, on
inputs where it visibly agrees with Python. -/

inductive JVal where
  | str : String → JVal
  | arr : List String → JVal
deriving DecidableEq

abbrev JObj := List (String × JVal)

/-- Last-occurrence lookup in a parsed JSON object (Python dict semantics:
a duplicated key keeps the last value). -/
def jGet : JObj → String → Option JVal
  | [], _ => none
  | (k2, v) :: rest, k =>
      match jGet rest k with
      | some v2 => some v2
      | none => if k2 == k then some v else none

/-- Skip ASCII whitespace. -/
def skipWs : List Char → List Char
  | [] => []
  | c :: rest => if wsChar c then skipWs rest else c :: rest

/-- Parse a double-quoted string (no escape support); accumulator reversed. -/
def parseQuotedAux : List Char → List Char → Option (String × List Char)
  | [], _ => none
  | c :: rest, acc =>
      if c = '"' then some (String.mk acc.reverse, rest)
      else if c = '\\' then none
      else parseQuotedAux rest (c :: acc)

/-- Parse a double-quoted string at the head of the input. -/
def parseQuoted : List Char → Option (String × List Char)
  | '"' :: rest => parseQuotedAux rest []
  | _ => none

/-- Parse the comma-separated items of a JSON array of strings, including the
closing bracket. -/
def parseArrItems : Nat → List Char → Option (List String × List Char)
  | 0, _ => none
  | fuel + 1, l =>
      match parseQuoted (skipWs l) with
      | none => none
      | some (s, rest) =>
          match skipWs rest with
          | ',' :: rest2 =>
              match parseArrItems fuel rest2 with
              | some (ss, r) => some (s :: ss, r)
              | none => none
          | ']' :: rest2 => some ([s], rest2)
          | _ => none

/-- Parse a JSON value of the modelled fragment (string or array of strings). -/
def parseVal (fuel : Nat) (l : List Char) : Option (JVal × List Char) :=
  match skipWs l with
  | '[' :: rest =>
      match skipWs rest with
      | ']' :: r2 => some (JVal.arr [], r2)
      | l2 => (parseArrItems fuel l2).map (fun p => (JVal.arr p.1, p.2))
  | l2 => (parseQuoted l2).map (fun p => (JVal.str p.1, p.2))

/-- Parse the key/value pairs of a JSON object, including the closing brace. -/
def parsePairs : Nat → List Char → Option (JObj × List Char)
  | 0, _ => none
  | fuel + 1, l =>
      match parseQuoted (skipWs l) with
      | none => none
      | some (k, rest) =>
          match skipWs rest with
          | ':' :: rest2 =>
              match parseVal fuel rest2 with
              | none => none
              | some (v, rest3) =>
                  match skipWs rest3 with
                  | ',' :: rest4 =>
                      match parsePairs fuel rest4 with
                      | some (ps, r) => some ((k, v) :: ps, r)
                      | none => none
                  | '}' :: rest4 => some ([(k, v)], rest4)
                  | _ => none
          | _ => none

/-- Model of Python `json.loads` restricted to flat objects with string or
string-array values (the shape requested from and returned by the external
classifier).  Returns `none` where that fragment does not apply — such a
`none` corresponds to a `json.JSONDecodeError` in Python for every input
actually built in this file. -/
def jsonLoadsModel (s : String) : Option JObj :=
  match skipWs s.data with
  | '{' :: rest =>
      match skipWs rest with
      | '}' :: r2 => if (skipWs r2).isEmpty then some [] else none
      | l2 =>
          match parsePairs (s.length + 1) l2 with
          | some (obj, r) => if (skipWs r).isEmpty then some obj else none
          | none => none
  | _ => none

/-! ## Mood classifier: heuristic fallback (`analyze_mood_fallback`) -/

/-- The result dictionary built by `analyze_mood_fallback` (keys `mood`,
`keywords`, `inspiration_text`, `color_palette`). -/
structure MoodResult where
  mood : String
  keywords : List String
  inspiration_text : String
  color_palette : String
deriving DecidableEq

/-- `mood_keywords` table of `analyze_mood_fallback`, in source order
(note the duplicated "energetic" keyword, as in the source). -/
def mood_keywords : List (String × List String) :=
  [("romantic", ["romantic", "love", "heart", "flower", "candle", "wine", "passion", "romance"]),
   ("peaceful", ["peaceful", "calm", "serene", "meditation", "yoga", "tranquil", "quiet"]),
   ("energetic", ["energetic", "dynamic", "vibrant", "active", "sport", "energetic", "lively"]),
   ("melancholic", ["melancholic", "sad", "nostalgic", "melancholy", "sorrow", "blue"]),
   ("nature", ["nature", "forest", "sea", "mountain", "flower", "tree", "outdoor", "natural"]),
   ("urban", ["urban", "city", "modern", "building", "street", "metropolitan", "downtown"]),
   ("vintage", ["vintage", "retro", "old", "classic", "nostalgic", "antique", "traditional"]),
   ("modern", ["modern", "minimalist", "clean", "simple", "contemporary", "sleek"])]

/-- `sum(1 for keyword in keywords if keyword in description_lower)`:
how many entries of `kws` occur as substrings of `dl` (counted with
multiplicity, as the source's generator does). -/
def moodScore (dl : String) (kws : List String) : Nat :=
  (kws.filter (fun k => hasSub dl.data k.data)).length

/-- The detection loop of `analyze_mood_fallback`: starting from
`(detected_mood, max_score)`, update on a strictly greater score. -/
def pickMax {α β : Type} (f : α → Nat) : β × Nat → List (β × α) → β × Nat
  | acc, [] => acc
  | acc, p :: rest => pickMax f (if f p.2 > acc.2 then (p.1, f p.2) else acc) rest

/-- `inspiration_phrases` table of `analyze_mood_fallback`. -/
def inspiration_phrases : List (String × String) :=
  [("romantic", "The dance of love and passion, in harmony with your heart\x27s rhythm"),
   ("peaceful", "The silent call of tranquility, soothing your soul"),
   ("energetic", "The excitement of energy, reflecting life\x27s dynamic flow"),
   ("melancholic", "In the depths of melancholy lies the hidden treasure of beauty"),
   ("nature", "The pure beauty of nature, renewing your spirit"),
   ("urban", "The modern rhythm of the city, carrying life\x27s dynamic energy"),
   ("vintage", "The elegance of the past meets today\x27s creativity"),
   ("modern", "The minimal elegance of modernity, exploring the boundaries of creativity")]

/-- Stop words removed by the keyword extraction of `analyze_mood_fallback`. -/
def stopWords : List String :=
  ["the", "and", "with", "for", "like", "feel", "want", "wanting"]

/-- Embedding of `analyze_mood_fallback` (src/backend/main.py, lines 217-267). -/
def analyze_mood_fallback (description : String) : MoodResult :=
  let description_lower := pyLower description
  let detected_mood :=
    (pickMax (moodScore description_lower) ("modern", 0) mood_keywords).1
  let words := reWords description_lower
  let filtered_words :=
    words.filter (fun w => w.length > 3 && !(stopWords.contains w))
  let keywords :=
    if filtered_words.isEmpty then ["inspiration", "creative", "design"]
    else filtered_words.take 3
  let inspiration_text :=
    (lookupFirst inspiration_phrases detected_mood).getD
      "Explore the boundaries of creativity"
  ⟨detected_mood, keywords, inspiration_text, detected_mood⟩

/-- The dictionary literal returned by `analyze_mood_fallback`. -/
def MoodResult.toJObj (m : MoodResult) : JObj :=
  [("mood", JVal.str m.mood), ("keywords", JVal.arr m.keywords),
   ("inspiration_text", JVal.str m.inspiration_text),
   ("color_palette", JVal.str m.color_palette)]

/-! ## Mood classifier: external call (`analyze_mood_with_ai`)

The HTTP call is modelled by `resp : Option (Nat × String)`:
`none` when `requests.post` (or the envelope access
`response.json()["response"]`) raises — every such exception is caught and
sent to the fallback — and `some (status, result_text)` when it returns
`status` with extracted response text `result_text`.  The JSON parse is an
arbitrary function `jl` standing for `json.loads` (returning `none` when
`json.loads` raises). -/

/-- The tolerant JSON extraction of `analyze_mood_with_ai`: the substring
from the first `\x7b` to the last `\x7d` (Python slice semantics:
`result_text[json_start:json_end]`). -/
def extractJsonStr (result_text : String) : String :=
  let json_start : Int := pyFindChar result_text '{'
  let json_end : Int := pyRfindChar result_text '}' + 1
  pySliceNat result_text json_start.toNat json_end.toNat

/-- Embedding of `analyze_mood_with_ai` (src/backend/main.py, lines 158-215). -/
def analyze_mood_with_ai (jl : String → Option JObj) (resp : Option (Nat × String))
    (description : String) : JObj :=
  match resp with
  | none => (analyze_mood_fallback description).toJObj
  | some (status, result_text) =>
      if status = 200 then
        -- `json_start != -1 and json_end != -1` with
        -- `json_start = result_text.find("{")` and
        -- `json_end = result_text.rfind("}") + 1` inlined
        if pyFindChar result_text '{' ≠ -1 ∧ pyRfindChar result_text '}' + 1 ≠ -1 then
          match jl (extractJsonStr result_text) with
          | some result => result
          | none => (analyze_mood_fallback description).toJObj
        else (analyze_mood_fallback description).toJObj
      else (analyze_mood_fallback description).toJObj

/-- The failure condition of the external classifier call: absent response
(connection error or any exception), non-200 status, no extractable JSON
(no opening brace), or a JSON parse failure on the extracted substring. -/
def classifierFailed (jl : String → Option JObj) (resp : Option (Nat × String)) : Prop :=
  match resp with
  | none => True
  | some (status, result_text) =>
      status ≠ 200 ∨ pyFindChar result_text '{' = -1 ∨
        jl (extractJsonStr result_text) = none

/-- The success condition: a 200 response whose extracted substring parses
to the object `obj`. -/
def classifierParsed (jl : String → Option JObj) (resp : Option (Nat × String))
    (obj : JObj) : Prop :=
  match resp with
  | none => False
  | some (status, result_text) =>
      status = 200 ∧ pyFindChar result_text '{' ≠ -1 ∧
        jl (extractJsonStr result_text) = some obj

/-! ## Palette selector (`MOOD_COLORS` and the lookup in `analyze_mood`) -/

/-- The four palette variants of the "modern" mood (also the default of
`MOOD_COLORS.get`). -/
def modernPalettes : List (List String) :=
  [["#000000", "#FFFFFF", "#808080", "#C0C0C0", "#FF6B35"],
   ["#2F2F2F", "#FFFFFF", "#808080", "#C0C0C0", "#FF6347"],
   ["#000000", "#F5F5F5", "#808080", "#C0C0C0", "#FF6B35"],
   ["#2F2F2F", "#FFFFFF", "#696969", "#C0C0C0", "#FF6347"]]

/-- Embedding of the `MOOD_COLORS` table (src/backend/main.py, lines 107-156). -/
def MOOD_COLORS : List (String × List (List String)) :=
  [("romantic",
    [["#FF6B9D", "#FFB3D1", "#FFE5F1", "#8B5A96", "#4A4A4A"],
     ["#FF1493", "#FF69B4", "#FFB6C1", "#C71585", "#DB7093"],
     ["#FF007F", "#FF69B4", "#FFC0CB", "#DC143C", "#FF1493"],
     ["#FF69B4", "#FFB6C1", "#FFC0CB", "#FF1493", "#C71585"]]),
   ("peaceful",
    [["#87CEEB", "#98FB98", "#F0E68C", "#DDA0DD", "#F5F5DC"],
     ["#B0E0E6", "#98FB98", "#F0E68C", "#DDA0DD", "#F0F8FF"],
     ["#ADD8E6", "#90EE90", "#F0E68C", "#DDA0DD", "#F5F5DC"],
     ["#87CEEB", "#98FB98", "#F0E68C", "#E6E6FA", "#F0F8FF"]]),
   ("energetic",
    [["#FF4500", "#FFD700", "#32CD32", "#4169E1", "#FF1493"],
     ["#FF6347", "#FFD700", "#00FF00", "#1E90FF", "#FF1493"],
     ["#FF4500", "#FFFF00", "#00FF7F", "#4169E1", "#FF1493"],
     ["#FF6347", "#FFD700", "#32CD32", "#1E90FF", "#FF1493"]]),
   ("melancholic",
    [["#2F4F4F", "#696969", "#708090", "#B0C4DE", "#E6E6FA"],
     ["#4A4A4A", "#696969", "#708090", "#B0C4DE", "#F0F8FF"],
     ["#2F4F4F", "#696969", "#778899", "#B0C4DE", "#E6E6FA"],
     ["#4A4A4A", "#696969", "#708090", "#C0C0C0", "#F0F8FF"]]),
   ("nature",
    [["#228B22", "#8FBC8F", "#F4A460", "#DEB887", "#CD853F"],
     ["#32CD32", "#90EE90", "#F4A460", "#DEB887", "#D2691E"],
     ["#228B22", "#98FB98", "#F4A460", "#DEB887", "#CD853F"],
     ["#32CD32", "#8FBC8F", "#F4A460", "#D2B48C", "#CD853F"]]),
   ("urban",
    [["#708090", "#2F4F4F", "#FF6347", "#FFD700", "#4169E1"],
     ["#696969", "#2F4F4F", "#FF6347", "#FFD700", "#1E90FF"],
     ["#708090", "#4A4A4A", "#FF6347", "#FFFF00", "#4169E1"],
     ["#696969", "#2F4F4F", "#FF4500", "#FFD700", "#1E90FF"]]),
   ("vintage",
    [["#8B4513", "#DEB887", "#F4A460", "#D2B48C", "#CD853F"],
     ["#A0522D", "#DEB887", "#F4A460", "#D2B48C", "#D2691E"],
     ["#8B4513", "#F5DEB3", "#F4A460", "#D2B48C", "#CD853F"],
     ["#A0522D", "#DEB887", "#F4A460", "#F5DEB3", "#CD853F"]]),
   ("modern", modernPalettes)]

/-- `MOOD_COLORS.get(m, MOOD_COLORS["modern"])` before the default is taken. -/
def lookupMood (m : String) : Option (List (List String)) :=
  lookupFirst MOOD_COLORS m

/-- `MOOD_COLORS.get(m, MOOD_COLORS["modern"])`. -/
def moodPalettesOf (m : String) : List (List String) :=
  (lookupMood m).getD modernPalettes

/-- `random.choice(MOOD_COLORS.get(mood, MOOD_COLORS["modern"]))` with the
random draw `r` made explicit (src/backend/main.py, lines 514-515). -/
def selectPalette (m : String) (r : Nat) : List String :=
  pyChoice (moodPalettesOf m) [] r

/-! ## Color namer (`get_color_name`) -/

/-- The `color_map` reference table of `get_color_name`
(src/backend/main.py, lines 338-357), in source order. -/
def color_map : List (String × String) :=
  [("#FF0000", "red"), ("#00FF00", "green"), ("#0000FF", "blue"),
   ("#FFFF00", "yellow"), ("#FF00FF", "magenta"), ("#00FFFF", "cyan"),
   ("#FFA500", "orange"), ("#FF6347", "coral"), ("#FF4500", "orange red"),
   ("#FFD700", "golden"), ("#FF69B4", "pink"), ("#FFC0CB", "light pink"),
   ("#A52A2A", "brown"), ("#8B4513", "saddle brown"),
   ("#800080", "purple"), ("#8A2BE2", "blue violet"), ("#4169E1", "royal blue"),
   ("#87CEEB", "sky blue"), ("#B0E0E6", "powder blue"), ("#20B2AA", "light sea green"),
   ("#32CD32", "lime green"), ("#98FB98", "pale green"),
   ("#000000", "black"), ("#FFFFFF", "white"), ("#808080", "gray"),
   ("#C0C0C0", "silver"), ("#F5F5DC", "beige"), ("#F0E68C", "khaki"),
   ("#DDA0DD", "plum"), ("#F0F8FF", "alice blue")]

/-- Hex digit value, by position in the digit alphabet (either case). -/
def hexDigitVal? (c : Char) : Option Nat :=
  match "0123456789ABCDEF".data.findIdx? (fun d => d == c) with
  | some v => some v
  | none => "0123456789abcdef".data.findIdx? (fun d => d == c)

/-- Value of a non-empty string of hex digits. -/
def hexDigitsVal? : List Char → Option Nat
  | [] => none
  | [c] => hexDigitVal? c
  | c :: rest =>
      match hexDigitVal? c, hexDigitsVal? rest with
      | some d, some v => some (d * 16 ^ rest.length + v)
      | _, _ => none

/-- Strip leading ASCII whitespace. -/
def stripWsL : List Char → List Char
  | [] => []
  | c :: rest => if wsChar c then stripWsL rest else c :: rest

/-- Model of Python `int(s, 16)` for the at-most-2-character slices taken by
`get_color_name`: surrounding whitespace is tolerated, an optional sign,
then one or more hex digits; anything else raises (`none`). -/
def pyIntHex? (s : String) : Option Int :=
  let l := (stripWsL (stripWsL s.data.reverse)).reverse
  match l with
  | '+' :: rest => (hexDigitsVal? rest).map Int.ofNat
  | '-' :: rest => (hexDigitsVal? rest).map (fun n => -(n : Int))
  | l2 => (hexDigitsVal? l2).map Int.ofNat

/-- The normalisation done by `get_color_name`: upper-case, strip one
leading `#` if present, then prepend `#`. -/
def normalizeHex (s : String) : String :=
  let u := pyUpper s
  let u2 := if u.data.head? = some '#' then String.mk (u.data.drop 1) else u
  String.mk ('#' :: u2.data)

/-- The three slice parses `int(h[1:3], 16)`, `int(h[3:5], 16)`,
`int(h[5:7], 16)`; `none` when any of them raises. -/
def parseRGB (h : String) : Option (Int × Int × Int) :=
  match pyIntHex? (pySliceNat h 1 3), pyIntHex? (pySliceNat h 3 5),
      pyIntHex? (pySliceNat h 5 7) with
  | some r, some g, some b => some (r, g, b)
  | _, _, _ => none

/-- Squared Euclidean RGB distance from `(r, g, b)` to the colour of key `k`
(every key of `color_map` parses; the `none` default is never hit there).
The source compares `math`-style square-rooted distances; all comparisons
made (`<` between distances, and against the threshold `100`) are
equivalent to the same comparisons between squared distances, which is
what is embedded (threshold `100 ** 2 = 10000`). -/
def dist2 (r g b : Int) (k : String) : Int :=
  match parseRGB k with
  | some (r2, g2, b2) => (r - r2) * (r - r2) + (g - g2) * (g - g2) + (b - b2) * (b - b2)
  | none => 0

/-- The nearest-colour loop of `get_color_name`: `acc` is
`(closest_color, min_distance)` with `none` standing for `float('inf')`;
entries whose key does not start with `#` are skipped, as in the source. -/
def closestAux (r g b : Int) : List (String × String) → String × Option Int → String × Option Int
  | [], acc => acc
  | (k, name) :: rest, acc =>
      if k.data.head? = some '#' then
        closestAux r g b rest
          (match acc.2 with
           | none => (name, some (dist2 r g b k))
           | some m => if dist2 r g b k < m then (name, some (dist2 r g b k)) else acc)
      else closestAux r g b rest acc

/-- Embedding of `get_color_name` (src/backend/main.py, lines 335-396); the
normalised string (the source's `hex_color` after upper-casing and `#`
handling) is written out at each use. -/
def get_color_name (hex_color : String) : String :=
  match lookupFirst color_map (normalizeHex hex_color) with
  | some name => name
  | none =>
      match parseRGB (normalizeHex hex_color) with
      | none => ""
      | some (r, g, b) =>
          match closestAux r g b color_map ("", none) with
          | (closest, some m) => if m < 10000 then closest else ""
          | (_, none) => ""

/-! ## Image generation chain -/

/-- The dictionary returned by `generate_ai_image` / `generate_themed_image`. -/
structure GenResult where
  url : String
  prompt : String
  source : String
  category : Option String
  model : Option String
deriving DecidableEq

/-- The `category_map` of `generate_themed_image`, in source order. -/
def category_map : List (String × List String) :=
  [("nature", ["forest", "mountain", "sea", "ocean", "tree", "flower", "landscape"]),
   ("urban", ["city", "building", "street", "architecture", "modern"]),
   ("romantic", ["love", "heart", "romantic", "candle", "wine", "rose"]),
   ("peaceful", ["calm", "serene", "peaceful", "meditation", "yoga"]),
   ("energetic", ["sport", "fitness", "dynamic", "energetic", "active"]),
   ("vintage", ["retro", "vintage", "old", "classic", "nostalgic"]),
   ("modern", ["modern", "minimalist", "clean", "simple", "contemporary"])]

/-- The `category_seeds` table of `generate_themed_image`. -/
def category_seeds : List (String × List Nat) :=
  [("nature", [100, 200, 300, 400, 500]),
   ("urban", [600, 700, 800, 900, 1000]),
   ("romantic", [1100, 1200, 1300, 1400, 1500]),
   ("peaceful", [1600, 1700, 1800, 1900, 2000]),
   ("energetic", [2100, 2200, 2300, 2400, 2500]),
   ("vintage", [2600, 2700, 2800, 2900, 3000]),
   ("modern", [3100, 3200, 3300, 3400, 3500])]

/-- `category_seeds[c]` (every category produced by the selection loop is a
key of the table, so the empty default is never taken). -/
def categorySeedsOf (c : String) : List Nat :=
  (lookupFirst category_seeds c).getD []

/-- The category-selection loop of `generate_themed_image`:
`selected_category = "nature"`, overwritten by the first category one of
whose words is a member of the token list, with `break`. -/
def selectCategory : List (String × List String) → List String → String
  | [], _ => "nature"
  | (cat, ws) :: rest, tokens =>
      if ws.any (fun w => tokens.contains w) then cat
      else selectCategory rest tokens

/-- The Picsum placeholder URL built from a seed. -/
def picsumUrl (seed : Nat) : String :=
  "https://picsum.photos/512/512?random=" ++ toString seed

/-- Embedding of `generate_themed_image` (src/backend/main.py, lines
444-494) with the random draw `r` explicit.  The body of its `try` block is
pure local computation, so the `except` branch (the fully random
placeholder) is unreachable; it is not part of this embedding. -/
def generate_themed_image (prompt style : String) (r : Nat) : GenResult :=
  let keywords := splitWsTokens (pyLower prompt)
  let selected_category := selectCategory category_map keywords
  let seed := pyChoice (categorySeedsOf selected_category) 0 r
  { url := picsumUrl seed, prompt := prompt,
    source := "Themed " ++ selected_category ++ " image",
    category := some selected_category, model := none,
    -- `style` is accepted but unused, as in the source
    }

/-- Embedding of `generate_ai_image` (src/backend/main.py, lines 402-442).
`gen prompt` models the Stable Diffusion pipeline on the enhanced prompt:
`none` when the pipeline is uninitialised (`sd_pipeline is None`) or when
generation raises, `some data` for a successful base64 PNG payload.  Both
failure modes fall back to `generate_themed_image(prompt, style)`. -/
def generate_ai_image (gen : String → Option String) (prompt style : String)
    (r : Nat) : GenResult :=
  -- the source's `enhanced_prompt` is written out at each use
  match gen (prompt ++ ", " ++ style ++ " style, high quality, detailed, beautiful, masterpiece") with
  | some data =>
      { url := "data:image/png;base64," ++ data,
        prompt := prompt ++ ", " ++ style ++ " style, high quality, detailed, beautiful, masterpiece",
        source := "Local Stable Diffusion", category := none,
        model := some "runwayml/stable-diffusion-v1-5" }
  | none => generate_themed_image prompt style r

/-- One element of the `images` list built by
`generate_multiple_images_with_colors`. -/
structure ImageRec where
  id : String
  url : String
  alt_description : String
  user_name : String
  source : String
deriving DecidableEq

/-- The five `prompt_variations` templates. -/
def prompt_variations (search_query color_description : String) : List String :=
  [search_query ++ ", " ++ color_description ++ " color theme, soft lighting, beautiful, high quality",
   search_query ++ ", " ++ color_description ++ " color palette, warm atmosphere, artistic, creative",
   search_query ++ ", " ++ color_description ++ " color scheme, natural lighting, inspiring, detailed",
   search_query ++ ", " ++ color_description ++ " color tones, ambient lighting, aesthetic, masterpiece",
   search_query ++ ", " ++ color_description ++ " color harmony, golden hour lighting, elegant, professional"]

/-- Embedding of `generate_multiple_images_with_colors`
(src/backend/main.py, lines 269-333).  `gen` is the image-model oracle and
`rand i` the random draw available to slot `i`'s themed fallback.
`generate_ai_image` is total (its internal failures all resolve to a
themed placeholder), so the per-slot `except` branch and the outer
`except` branch (Picsum `fallback_` entries) of the source are
unreachable; the embedding is the body of the `try` block. -/
def generate_multiple_images_with_colors (gen : String → Option String)
    (rand : Nat → Nat) (keywords : List String) (color_palette : List String)
    (count : Nat) : List ImageRec :=
  let search_query :=
    if keywords.isEmpty then "inspiration" else String.intercalate " " (keywords.take 3)
  let color_names := (color_palette.map get_color_name).filter (fun n => n ≠ "")
  let primary_colors := color_names.take 2
  let color_description := String.intercalate ", " primary_colors
  (List.range count).map (fun i =>
    let prompt := (prompt_variations search_query color_description).getD (i % 5) ""
    let result := generate_ai_image gen prompt "realistic" (rand i)
    { id := "ai_" ++ toString i, url := result.url,
      alt_description := if keywords.isEmpty then "inspiration" else keywords.getD 0 "",
      user_name := "AI Generated", source := result.source })

/-! ## The `/api/analyze-mood` handler (`analyze_mood`) -/

/-- The `MoodBoardResponse` payload. -/
structure MoodBoardResponse where
  images : List ImageRec
  color_palette : List String
  inspiration_text : String
  mood_analysis : JObj
deriving DecidableEq

/-- `mood_analysis["keywords"]` as consumed by the compositor.  A JSON
string behaves, under every operation the compositor applies (`[:3]`,
`" ".join`, truthiness, `[0]`), exactly like the list of its one-character
strings, which is how it is embedded. -/
def jvalKeywords : JVal → List String
  | JVal.arr xs => xs
  | JVal.str s => s.data.map (fun c => String.mk [c])

/-- Embedding of the `analyze_mood` handler (src/backend/main.py, lines
505-527).  `Except.error` models an exception reaching the handler's
`except`, which returns HTTP 500.  A missing `mood` key is a `KeyError`; a
JSON-array `mood` is unhashable, so `MOOD_COLORS.get` raises `TypeError`;
a missing `keywords` or `inspiration_text` key is a `KeyError`; a
non-string `inspiration_text` fails `MoodBoardResponse` validation. -/
def analyze_mood (jl : String → Option JObj) (gen : String → Option String)
    (rand : Nat → Nat) (rPal : Nat) (resp : Option (Nat × String))
    (description : String) : Except String MoodBoardResponse :=
  let mood_analysis := analyze_mood_with_ai jl resp description
  match jGet mood_analysis "mood" with
  | none => Except.error "KeyError: mood"
  | some (JVal.arr _) => Except.error "TypeError: unhashable mood value"
  | some (JVal.str mood) =>
      let color_palette := selectPalette mood rPal
      match jGet mood_analysis "keywords" with
      | none => Except.error "KeyError: keywords"
      | some kw =>
          let images :=
            generate_multiple_images_with_colors gen rand (jvalKeywords kw) color_palette 5
          match jGet mood_analysis "inspiration_text" with
          | none => Except.error "KeyError: inspiration_text"
          | some (JVal.arr _) => Except.error "ValidationError: inspiration_text"
          | some (JVal.str inspiration_text) =>
              Except.ok ⟨images, color_palette, inspiration_text, mood_analysis⟩

/-! ## Specification-side definitions -/

/-- The 8 mood labels of the specification. -/
def moodLabels : List String :=
  ["romantic", "peaceful", "energetic", "melancholic", "nature", "urban", "vintage", "modern"]

/-- Maximum score over a scored association list (0 on the empty list). -/
def maxF {α β : Type} (f : α → Nat) : List (β × α) → Nat
  | [] => 0
  | p :: rest => max (f p.2) (maxF f rest)

/-- The first key of `l` whose score is exactly `M`. -/
def firstAt {α β : Type} (f : α → Nat) (M : Nat) (l : List (β × α)) : Option β :=
  (l.find? (fun p => f p.2 == M)).map (·.1)

/-- The largest possible heuristic mood score for a description. -/
def moodMax (d : String) : Nat := maxF (moodScore (pyLower d)) mood_keywords

/-- The three image source kinds of the specification. -/
inductive SourceKind where
  | ai_generated
  | themed_placeholder
  | random_placeholder
deriving DecidableEq

/-- The 7 themed-placeholder category names, in table order. -/
def categoryNames : List String := category_map.map (·.1)

/-- The `source` strings denoting a themed placeholder. -/
def themedSources : List String := categoryNames.map (fun c => "Themed " ++ c ++ " image")

/-- Classify a `source` string into one of the three defined source kinds. -/
def sourceKindOf (s : String) : Option SourceKind :=
  if s = "Local Stable Diffusion" then some SourceKind.ai_generated
  else if s = "Fallback random image" then some SourceKind.random_placeholder
  else if themedSources.contains s then some SourceKind.themed_placeholder
  else none

/-- Specification form of the themed-category selection: the first category
of the table one of whose words occurs among the tokens, defaulting to
"nature". -/
def firstMatchingCategory (tokens : List String) : String :=
  ((category_map.find? (fun p => p.2.any (fun w => tokens.contains w))).map (·.1)).getD "nature"

/-- All 32 predefined palette variants (8 moods × 4 variants). -/
def allPaletteVariants : List (List String) := (MOOD_COLORS.map (·.2)).join

/-- The palette of five greens from the specification's compositor scenario. -/
def greensPalette : List String :=
  ["#228B22", "#32CD32", "#90EE90", "#98FB98", "#8FBC8F"]

/-! ## Generic lemmas -/

theorem myGetD_mem {α : Type} : ∀ (l : List α) (n : Nat) (d : α), n < l.length → l.getD n d ∈ l
  | _ :: _, 0, _, _ => List.Mem.head _
  | _ :: l, n + 1, d, h => List.Mem.tail _ (myGetD_mem l n d (Nat.lt_of_succ_lt_succ h))

theorem pyChoice_mem {α : Type} (l : List α) (d : α) (r : Nat) (h : l ≠ []) :
    pyChoice l d r ∈ l := by
  have hlen : 0 < l.length := List.length_pos.mpr h
  exact myGetD_mem l (r % l.length) d (Nat.mod_lt _ hlen)

theorem pickMax_snd {α β : Type} (f : α → Nat) :
    ∀ (l : List (β × α)) (acc : β × Nat), (pickMax f acc l).2 = max acc.2 (maxF f l) := by
  intro l
  induction l with
  | nil => intro acc; simp [pickMax, maxF]
  | cons p rest ih =>
      intro acc
      by_cases h : f p.2 > acc.2
      · simp only [pickMax, if_pos h, maxF, ih]; omega
      · simp only [pickMax, if_neg h, maxF, ih]; omega

theorem pickMax_fst_of_le {α β : Type} (f : α → Nat) :
    ∀ (l : List (β × α)) (acc : β × Nat), maxF f l ≤ acc.2 → (pickMax f acc l).1 = acc.1 := by
  intro l
  induction l with
  | nil => intro acc _; rfl
  | cons p rest ih =>
      intro acc h
      have h1 : f p.2 ≤ acc.2 := le_trans (le_max_left _ _) h
      have h2 : maxF f rest ≤ acc.2 := le_trans (le_max_right _ _) h
      simp only [pickMax, if_neg (by omega : ¬ f p.2 > acc.2)]
      exact ih acc h2

theorem pickMax_fst_of_lt {α β : Type} (f : α → Nat) :
    ∀ (l : List (β × α)) (acc : β × Nat), acc.2 < maxF f l →
      some (pickMax f acc l).1 = firstAt f (maxF f l) l := by
  intro l
  induction l with
  | nil => intro acc h; exact absurd h (by simp [maxF])
  | cons p rest ih =>
      intro acc h
      by_cases hFR : maxF f rest ≤ f p.2
      · have hM : maxF f (p :: rest) = f p.2 := by simp only [maxF]; omega
        have hupd : f p.2 > acc.2 := by rw [hM] at h; exact h
        have hpred : ((fun q : β × α => f q.2 == maxF f (p :: rest)) p) = true := by
          simp [hM]
        have hfind : List.find? (fun q : β × α => f q.2 == maxF f (p :: rest)) (p :: rest) =
            some p := List.find?_cons_of_pos _ hpred
        simp only [pickMax, if_pos hupd]
        rw [pickMax_fst_of_le f rest (p.1, f p.2) (by simpa using hFR)]
        unfold firstAt
        rw [hfind]
        rfl
      · push_neg at hFR
        have hM : maxF f (p :: rest) = maxF f rest := by simp only [maxF]; omega
        have hpred : ¬ ((fun q : β × α => f q.2 == maxF f (p :: rest)) p) = true := by
          simp [hM]; omega
        have hfind : List.find? (fun q : β × α => f q.2 == maxF f (p :: rest)) (p :: rest) =
            List.find? (fun q : β × α => f q.2 == maxF f (p :: rest)) rest :=
          List.find?_cons_of_neg _ hpred
        have hacc2 : (if f p.2 > acc.2 then (p.1, f p.2) else acc).2 < maxF f rest := by
          rw [hM] at h
          split
          · exact hFR
          · exact h
        simp only [pickMax]
        rw [ih _ hacc2]
        unfold firstAt
        rw [← hM, hfind, hM]

theorem pickMax_fst_mem {α β : Type} (f : α → Nat) :
    ∀ (l : List (β × α)) (acc : β × Nat),
      (pickMax f acc l).1 = acc.1 ∨ (pickMax f acc l).1 ∈ l.map (·.1) := by
  intro l
  induction l with
  | nil => intro acc; left; rfl
  | cons p rest ih =>
      intro acc
      by_cases h : f p.2 > acc.2
      · simp only [pickMax, if_pos h]
        rcases ih (p.1, f p.2) with h' | h'
        · right; rw [h']; exact List.mem_cons_self _ _
        · right; exact List.mem_cons_of_mem _ h'
      · simp only [pickMax, if_neg h]
        rcases ih acc with h' | h'
        · left; exact h'
        · right; exact List.mem_cons_of_mem _ h'

theorem lookupFirst_mem_values {α : Type} {l : List (String × α)} {k : String} {v : α}
    (h : lookupFirst l k = some v) : v ∈ l.map (·.2) := by
  unfold lookupFirst at h
  rcases Option.map_eq_some'.mp h with ⟨p, hp, hv⟩
  exact hv ▸ List.mem_map_of_mem _ (List.mem_of_find?_eq_some hp)

theorem selectCategory_eq_first :
    ∀ (l : List (String × List String)) (tokens : List String),
      selectCategory l tokens =
        ((l.find? (fun p => p.2.any (fun w => tokens.contains w))).map (·.1)).getD "nature" := by
  intro l tokens
  induction l with
  | nil => rfl
  | cons p rest ih =>
      cases p with
      | mk a b =>
          cases h : (b.any (fun w => tokens.contains w)) with
          | true =>
              have hfind : List.find? (fun p : String × List String =>
                    p.2.any (fun w => tokens.contains w)) ((a, b) :: rest) = some (a, b) :=
                List.find?_cons_of_pos _ h
              rw [hfind]
              simp only [selectCategory, if_pos h, Option.map_some', Option.getD_some]
          | false =>
              have hcond : ¬ (b.any (fun w => tokens.contains w)) = true := by
                intro hx; rw [h] at hx; exact absurd hx (by decide)
              have hfind : List.find? (fun p : String × List String =>
                    p.2.any (fun w => tokens.contains w)) ((a, b) :: rest) =
                  List.find? (fun p : String × List String =>
                    p.2.any (fun w => tokens.contains w)) rest :=
                List.find?_cons_of_neg _ hcond
              rw [hfind]
              simp only [selectCategory, if_neg hcond]
              exact ih

theorem selectCategory_mem :
    ∀ (l : List (String × List String)) (tokens : List String),
      selectCategory l tokens = "nature" ∨ selectCategory l tokens ∈ l.map (·.1) := by
  intro l tokens
  induction l with
  | nil => left; rfl
  | cons p rest ih =>
      cases p with
      | mk a b =>
          cases h : (b.any (fun w => tokens.contains w)) with
          | true =>
              right
              simp only [selectCategory, if_pos h]
              exact List.mem_cons_self _ _
          | false =>
              have hcond : ¬ (b.any (fun w => tokens.contains w)) = true := by
                intro hx; rw [h] at hx; exact absurd hx (by decide)
              have hrw : selectCategory ((a, b) :: rest) tokens = selectCategory rest tokens := by
                simp only [selectCategory, if_neg hcond]
              rcases ih with h' | h'
              · left; rw [hrw]; exact h'
              · right; rw [hrw]; exact List.mem_cons_of_mem _ h'

/-! ## Lemmas about the nearest-colour loop -/

theorem closestAux_isSome (r g b : Int) :
    ∀ (l : List (String × String)) (acc : String × Option Int),
      acc.2.isSome → ((closestAux r g b l acc).2).isSome := by
  intro l
  induction l with
  | nil => intro acc h; exact h
  | cons e rest ih =>
      intro acc h
      rcases e with ⟨k, name⟩
      rcases acc with ⟨best, mo⟩
      by_cases hg : k.data.head? = some '#'
      · cases mo with
        | none => exact absurd h (by simp)
        | some m =>
            simp only [closestAux, if_pos hg]
            apply ih
            split <;> simp
      · simp only [closestAux, if_neg hg]
        exact ih _ h

theorem closestAux_isSome_start (r g b : Int) :
    ∀ (l : List (String × String)) (acc : String × Option Int),
      ((∃ e ∈ l, e.1.data.head? = some '#') ∨ acc.2.isSome) →
      ((closestAux r g b l acc).2).isSome := by
  intro l
  induction l with
  | nil =>
      intro acc h
      rcases h with ⟨e, he, _⟩ | h
      · exact absurd he (List.not_mem_nil e)
      · exact h
  | cons p rest ih =>
      intro acc h
      rcases p with ⟨k, name⟩
      rcases acc with ⟨best, mo⟩
      by_cases hg : k.data.head? = some '#'
      · cases mo with
        | none =>
            have hrw : closestAux r g b ((k, name) :: rest) (best, none) =
                closestAux r g b rest (name, some (dist2 r g b k)) := by
              simp only [closestAux, if_pos hg]
            rw [hrw]
            exact closestAux_isSome r g b _ _ (by simp)
        | some m =>
            have hrw : closestAux r g b ((k, name) :: rest) (best, some m) =
                closestAux r g b rest
                  (if dist2 r g b k < m then (name, some (dist2 r g b k))
                   else (best, some m)) := by
              simp only [closestAux, if_pos hg]
            rw [hrw]
            apply closestAux_isSome
            split <;> simp
      · have hrw : closestAux r g b ((k, name) :: rest) (best, mo) =
            closestAux r g b rest (best, mo) := by
          simp only [closestAux, if_neg hg]
        rw [hrw]
        apply ih
        rcases h with ⟨e, he, hge⟩ | h
        · rcases List.mem_cons.mp he with he' | he'
          · rw [he'] at hge
            exact absurd hge hg
          · exact Or.inl ⟨e, he', hge⟩
        · exact Or.inr h

theorem closestAux_le (r g b : Int) :
    ∀ (l : List (String × String)) (acc : String × Option Int) (m : Int),
      (closestAux r g b l acc).2 = some m →
      (∀ e ∈ l, e.1.data.head? = some '#' → m ≤ dist2 r g b e.1) ∧
      (∀ m0 : Int, acc.2 = some m0 → m ≤ m0) := by
  intro l
  induction l with
  | nil =>
      intro acc m h
      have h' : acc.2 = some m := h
      refine ⟨by simp, fun m0 h0 => ?_⟩
      rw [h'] at h0
      injection h0 with h0
      omega
  | cons e rest ih =>
      intro acc m h
      rcases e with ⟨k, name⟩
      rcases acc with ⟨best, mo⟩
      by_cases hg : k.data.head? = some '#'
      · cases mo with
        | none =>
            simp only [closestAux, if_pos hg] at h
            rcases ih _ _ h with ⟨h1, h2⟩
            refine ⟨fun e he hge => ?_, fun m0 h0 => by simp at h0⟩
            rcases List.mem_cons.mp he with he' | he'
            · rw [he']
              show m ≤ dist2 r g b k
              exact h2 _ rfl
            · exact h1 e he' hge
        | some m0 =>
            simp only [closestAux, if_pos hg] at h
            by_cases hd : dist2 r g b k < m0
            · rw [if_pos hd] at h
              rcases ih _ _ h with ⟨h1, h2⟩
              refine ⟨fun e he hge => ?_, fun mx hx => ?_⟩
              · rcases List.mem_cons.mp he with he' | he'
                · rw [he']
                  show m ≤ dist2 r g b k
                  exact h2 _ rfl
                · exact h1 e he' hge
              · injection hx with hx
                have := h2 _ rfl
                omega
            · rw [if_neg hd] at h
              rcases ih _ _ h with ⟨h1, h2⟩
              refine ⟨fun e he hge => ?_, fun mx hx => ?_⟩
              · rcases List.mem_cons.mp he with he' | he'
                · rw [he']
                  show m ≤ dist2 r g b k
                  have := h2 _ rfl
                  omega
                · exact h1 e he' hge
              · injection hx with hx
                have := h2 _ rfl
                omega
      · simp only [closestAux, if_neg hg] at h
        rcases ih _ _ h with ⟨h1, h2⟩
        refine ⟨fun e he hge => ?_, h2⟩
        rcases List.mem_cons.mp he with he' | he'
        · rw [he'] at hge
          exact absurd hge hg
        · exact h1 e he' hge

theorem closestAux_attain (r g b : Int) :
    ∀ (l : List (String × String)) (acc : String × Option Int) (m : Int),
      (closestAux r g b l acc).2 = some m →
      ((closestAux r g b l acc).1 = acc.1 ∧ acc.2 = some m) ∨
      ∃ e ∈ l, (closestAux r g b l acc).1 = e.2 ∧ m = dist2 r g b e.1 := by
  intro l
  induction l with
  | nil => intro acc m h; exact Or.inl ⟨rfl, h⟩
  | cons e rest ih =>
      intro acc m h
      rcases e with ⟨k, name⟩
      rcases acc with ⟨best, mo⟩
      by_cases hg : k.data.head? = some '#'
      · cases mo with
        | none =>
            have hrw : closestAux r g b ((k, name) :: rest) (best, none) =
                closestAux r g b rest (name, some (dist2 r g b k)) := by
              simp only [closestAux, if_pos hg]
            rw [hrw] at h ⊢
            rcases ih _ _ h with ⟨h1, h2⟩ | ⟨e, he, h1, h2⟩
            · right
              refine ⟨(k, name), List.mem_cons_self _ _, h1, ?_⟩
              show m = dist2 r g b k
              injection h2 with h2
              omega
            · exact Or.inr ⟨e, List.mem_cons_of_mem _ he, h1, h2⟩
        | some m0 =>
            by_cases hd : dist2 r g b k < m0
            · have hrw : closestAux r g b ((k, name) :: rest) (best, some m0) =
                  closestAux r g b rest (name, some (dist2 r g b k)) := by
                simp only [closestAux, if_pos hg, if_pos hd]
              rw [hrw] at h ⊢
              rcases ih _ _ h with ⟨h1, h2⟩ | ⟨e, he, h1, h2⟩
              · right
                refine ⟨(k, name), List.mem_cons_self _ _, h1, ?_⟩
                show m = dist2 r g b k
                injection h2 with h2
                omega
              · exact Or.inr ⟨e, List.mem_cons_of_mem _ he, h1, h2⟩
            · have hrw : closestAux r g b ((k, name) :: rest) (best, some m0) =
                  closestAux r g b rest (best, some m0) := by
                simp only [closestAux, if_pos hg, if_neg hd]
              rw [hrw] at h ⊢
              rcases ih _ _ h with ⟨h1, h2⟩ | ⟨e, he, h1, h2⟩
              · exact Or.inl ⟨h1, h2⟩
              · exact Or.inr ⟨e, List.mem_cons_of_mem _ he, h1, h2⟩
      · have hrw : closestAux r g b ((k, name) :: rest) (best, mo) =
            closestAux r g b rest (best, mo) := by
          simp only [closestAux, if_neg hg]
        rw [hrw] at h ⊢
        rcases ih _ _ h with ⟨h1, h2⟩ | ⟨e, he, h1, h2⟩
        · exact Or.inl ⟨h1, h2⟩
        · exact Or.inr ⟨e, List.mem_cons_of_mem _ he, h1, h2⟩

/-! ## Lemmas about case normalisation -/

theorem upperChar_cases (c : Char) : upperChar c = c ∨ upperChar c ∈ azPairs.map (·.2) := by
  unfold upperChar
  cases h : azPairs.find? (fun p => p.1 == c) with
  | none => left; rfl
  | some p => right; exact List.mem_map_of_mem _ (List.mem_of_find?_eq_some h)

theorem upperChar_idem (c : Char) : upperChar (upperChar c) = upperChar c := by
  have hfix : ∀ x ∈ azPairs.map (·.2), upperChar x = x := by decide
  rcases upperChar_cases c with h | h
  · rw [h]
    exact h
  · exact hfix _ h

theorem mapUpper_idem : ∀ l : List Char, (l.map upperChar).map upperChar = l.map upperChar := by
  intro l
  induction l with
  | nil => rfl
  | cons c rest ih => simp [upperChar_idem, ih]

theorem pyUpper_idem (s : String) : pyUpper (pyUpper s) = pyUpper s := by
  unfold pyUpper
  exact congrArg String.mk (mapUpper_idem s.data)

theorem normalizeHex_upper (s : String) : normalizeHex (pyUpper s) = normalizeHex s := by
  unfold normalizeHex
  rw [pyUpper_idem]

theorem get_color_name_upper (s : String) : get_color_name (pyUpper s) = get_color_name s := by
  unfold get_color_name
  rw [normalizeHex_upper]

/-! ## Lemmas about the classifier fallback paths -/

theorem rfindP1_ne (s : String) : pyRfindChar s '}' + 1 ≠ -1 := by
  unfold pyRfindChar
  cases lastIdxA '}' s.data with
  | none => decide
  | some n => simp only []; omega

theorem awai_fallback_eq (jl : String → Option JObj) (resp : Option (Nat × String))
    (d : String) (h : classifierFailed jl resp) :
    analyze_mood_with_ai jl resp d = (analyze_mood_fallback d).toJObj := by
  cases resp with
  | none => rfl
  | some p =>
      rcases p with ⟨st, txt⟩
      have h2 : st ≠ 200 ∨ pyFindChar txt '{' = -1 ∨ jl (extractJsonStr txt) = none := h
      have hred : analyze_mood_with_ai jl (some (st, txt)) d =
          (if st = 200 then
             if pyFindChar txt '{' ≠ -1 ∧ pyRfindChar txt '}' + 1 ≠ -1 then
               (match jl (extractJsonStr txt) with
                | some result => result
                | none => (analyze_mood_fallback d).toJObj)
             else (analyze_mood_fallback d).toJObj
           else (analyze_mood_fallback d).toJObj) := rfl
      rw [hred]
      by_cases h200 : st = 200
      · rw [if_pos h200]
        rcases h2 with h' | h' | h'
        · exact absurd h200 h'
        · rw [if_neg]
          intro hc
          exact hc.1 h'
        · by_cases hjs : pyFindChar txt '{' = -1
          · rw [if_neg]
            intro hc
            exact hc.1 hjs
          · rw [if_pos ⟨hjs, rfindP1_ne txt⟩, h']
      · rw [if_neg h200]

theorem awai_parsed_eq (jl : String → Option JObj) (resp : Option (Nat × String))
    (d : String) (obj : JObj) (h : classifierParsed jl resp obj) :
    analyze_mood_with_ai jl resp d = obj := by
  cases resp with
  | none => exact absurd (h : False) (fun hx => hx)
  | some p =>
      rcases p with ⟨st, txt⟩
      have h2 : st = 200 ∧ pyFindChar txt '{' ≠ -1 ∧ jl (extractJsonStr txt) = some obj := h
      obtain ⟨h200, hjs, hobj⟩ := h2
      have hred : analyze_mood_with_ai jl (some (st, txt)) d =
          (if st = 200 then
             if pyFindChar txt '{' ≠ -1 ∧ pyRfindChar txt '}' + 1 ≠ -1 then
               (match jl (extractJsonStr txt) with
                | some result => result
                | none => (analyze_mood_fallback d).toJObj)
             else (analyze_mood_fallback d).toJObj
           else (analyze_mood_fallback d).toJObj) := rfl
      rw [hred, if_pos h200, if_pos ⟨hjs, rfindP1_ne txt⟩, hobj]

/-! ## Lemmas about the palette tables -/

theorem MOOD_COLORS_shape :
    ∀ e ∈ MOOD_COLORS, e.2.length = 4 ∧ ∀ v ∈ e.2, v.length = 5 := by decide

theorem moodPalettesOf_shape (m : String) :
    (moodPalettesOf m).length = 4 ∧ ∀ v ∈ moodPalettesOf m, v.length = 5 := by
  unfold moodPalettesOf
  cases hl : lookupMood m with
  | none => decide
  | some v =>
      unfold lookupMood lookupFirst at hl
      rcases Option.map_eq_some'.mp hl with ⟨p, hp, hv⟩
      have := MOOD_COLORS_shape p (List.mem_of_find?_eq_some hp)
      rw [Option.getD_some, ← hv]
      exact this

theorem moodPalettesOf_sub_all (m : String) :
    ∀ v ∈ moodPalettesOf m, v ∈ allPaletteVariants := by
  intro v hv
  unfold moodPalettesOf at hv
  cases hl : lookupMood m with
  | none =>
      rw [hl, Option.getD_none] at hv
      have hmem : modernPalettes ∈ MOOD_COLORS.map (·.2) := by decide
      exact List.mem_join.mpr ⟨modernPalettes, hmem, hv⟩
  | some pv =>
      rw [hl, Option.getD_some] at hv
      unfold lookupMood lookupFirst at hl
      rcases Option.map_eq_some'.mp hl with ⟨p, hp, hveq⟩
      have hmem : p.2 ∈ MOOD_COLORS.map (·.2) :=
        List.mem_map_of_mem _ (List.mem_of_find?_eq_some hp)
      exact List.mem_join.mpr ⟨p.2, hmem, by rw [hveq]; exact hv⟩

theorem lookupFirst_mem_keys {α : Type} {l : List (String × α)} {k : String} {v : α}
    (h : lookupFirst l k = some v) : ∃ p ∈ l, p.1 = k ∧ p.2 = v := by
  unfold lookupFirst at h
  rcases Option.map_eq_some'.mp h with ⟨p, hp, hv⟩
  refine ⟨p, List.mem_of_find?_eq_some hp, ?_, hv⟩
  have := List.find?_some hp
  simpa using this

/-! ## Shared helper lemmas for the claim theorems -/

theorem generate_ai_image_source_kind (gen : String → Option String)
    (prompt style : String) (r : Nat) :
    (sourceKindOf (generate_ai_image gen prompt style r).source).isSome := by
  unfold generate_ai_image
  cases gen (prompt ++ ", " ++ style ++ " style, high quality, detailed, beautiful, masterpiece") with
  | some data =>
      show (sourceKindOf "Local Stable Diffusion").isSome
      decide
  | none =>
      have hall : ∀ c ∈ categoryNames, (sourceKindOf ("Themed " ++ c ++ " image")).isSome := by
        decide
      show (sourceKindOf ("Themed " ++
        selectCategory category_map (splitWsTokens (pyLower prompt)) ++ " image")).isSome
      rcases selectCategory_mem category_map (splitWsTokens (pyLower prompt)) with h | h
      · rw [h]
        decide
      · exact hall _ h

theorem color_map_guard : ∀ e ∈ color_map, e.1.data.head? = some '#' := by decide

theorem get_color_name_range (s : String) :
    get_color_name s = "" ∨ get_color_name s ∈ color_map.map (·.2) := by
  cases hlook : lookupFirst color_map (normalizeHex s) with
  | some name =>
      have hval : get_color_name s = name := by
        unfold get_color_name
        rw [hlook]
      rw [hval]
      exact Or.inr (lookupFirst_mem_values hlook)
  | none =>
      cases hparse : parseRGB (normalizeHex s) with
      | none =>
          have hval : get_color_name s = "" := by
            unfold get_color_name
            rw [hlook, hparse]
          exact Or.inl hval
      | some t =>
          rcases t with ⟨r, g, b⟩
          have hred : get_color_name s =
              (match closestAux r g b color_map ("", none) with
               | (closest, some m) => if m < 10000 then closest else ""
               | (_, none) => "") := by
            unfold get_color_name
            rw [hlook, hparse]
          rcases hres : closestAux r g b color_map ("", none) with ⟨best, mo⟩
          cases mo with
          | none =>
              have hval : get_color_name s = "" := by rw [hred, hres]
              exact Or.inl hval
          | some m =>
              have hval : get_color_name s = if m < 10000 then best else "" := by
                rw [hred, hres]
              by_cases hm : m < 10000
              · rcases closestAux_attain r g b color_map ("", none) m
                    (by rw [hres]) with ⟨_, hbad⟩ | ⟨e, he, hbest, _⟩
                · exact absurd hbad (by simp)
                · have hbest' : best = e.2 := by rw [hres] at hbest; exact hbest
                  rw [hval, if_pos hm, hbest']
                  exact Or.inr (List.mem_map_of_mem _ he)
              · rw [hval, if_neg hm]
                exact Or.inl rfl

/-- The response and object of a classifier run whose JSON carries a mood
outside the 8-label set. -/
def gothicResponse : String :=
  "Sure! Here is your JSON: \x7b\"mood\": \"gothic\", \"keywords\": [\"dark\", \"castle\"], \"inspiration_text\": \"Night falls.\", \"color_palette\": \"gothic\"\x7d"

/-- The Python-dict value of `json.loads` on the braces-delimited substring
of `gothicResponse`. -/
def gothicObj : JObj :=
  [("mood", JVal.str "gothic"), ("keywords", JVal.arr ["dark", "castle"]),
   ("inspiration_text", JVal.str "Night falls."), ("color_palette", JVal.str "gothic")]

/-- A 200 classifier response whose JSON parses but omits the `mood` field. -/
def missingMoodResponse : String :=
  "\x7b\"keywords\": [\"sunset\", \"beach\"], \"inspiration_text\": \"Chase the light.\", \"color_palette\": \"romantic\"\x7d"

/-! ## Claim theorems -/

/-- Claim C1, counterexample: on a 200 response whose JSON parses with
`mood = "gothic"`, `analyze_mood_with_ai` returns that object unchanged, so
its mood is not one of the 8 known labels — the claimed normalisation of
classifier output does not happen. -/
theorem C1_clamp_cex :
    jGet (analyze_mood_with_ai jsonLoadsModel (some (200, gothicResponse)) "a dark castle")
      "mood" = some (JVal.str "gothic") ∧ "gothic" ∉ moodLabels :=
  ⟨by decide, by decide⟩

/-- Claim C1, amended: the 8-label invariant holds on every failure path
(the heuristic fallback's mood is always one of the 8 labels, and on any
absent / non-200 / unparseable response `analyze_mood_with_ai` returns that
fallback result), but a successfully parsed classifier response is passed
through unchanged, without any normalisation of its mood value; the clamp
to "modern" happens only at the palette lookup in the handler. -/
theorem C1_mood_labels (jl : String → Option JObj) (resp : Option (Nat × String)) (d : String) :
    (analyze_mood_fallback d).mood ∈ moodLabels ∧
    (classifierFailed jl resp →
      jGet (analyze_mood_with_ai jl resp d) "mood" =
        some (JVal.str (analyze_mood_fallback d).mood)) ∧
    (∀ obj, classifierParsed jl resp obj → analyze_mood_with_ai jl resp d = obj) := by
  refine ⟨?_, ?_, ?_⟩
  · have hsub : ∀ x ∈ mood_keywords.map (·.1), x ∈ moodLabels := by decide
    show (pickMax (moodScore (pyLower d)) ("modern", 0) mood_keywords).1 ∈ moodLabels
    rcases pickMax_fst_mem (moodScore (pyLower d)) mood_keywords ("modern", 0) with h | h
    · rw [h]
      decide
    · exact hsub _ h
  · intro h
    rw [awai_fallback_eq jl resp d h]
    rfl
  · intro obj h
    exact awai_parsed_eq jl resp d obj h

/-- Witness for C1_mood_labels at concrete inputs: an absent response for
"sad rainy day" (failure path), and the gothic 200 response (pass-through
path). -/
theorem C1_mood_labels_witness :
    jGet (analyze_mood_with_ai jsonLoadsModel none "sad rainy day") "mood" =
      some (JVal.str (analyze_mood_fallback "sad rainy day").mood) ∧
    analyze_mood_with_ai jsonLoadsModel (some (200, gothicResponse)) "a dark castle" =
      gothicObj :=
  ⟨(C1_mood_labels jsonLoadsModel none "sad rainy day").2.1 trivial,
   (C1_mood_labels jsonLoadsModel (some (200, gothicResponse)) "a dark castle").2.2
     gothicObj (by exact ⟨rfl, by decide, by decide⟩)⟩

/-- Claim C2: the code does not substitute heuristic values for fields
missing from a parsed classifier response.  On a 200 response whose JSON
parses but omits `mood`, `analyze_mood_with_ai` returns the `mood`-less
object, and the `/api/analyze-mood` handler's `mood_analysis["mood"]`
lookup raises `KeyError`, which its `except` turns into an HTTP 500. -/
theorem C2_missing_field_500 :
    jGet (analyze_mood_with_ai jsonLoadsModel (some (200, missingMoodResponse))
      "sunset beach walk") "mood" = none ∧
    analyze_mood jsonLoadsModel (fun _ => none) (fun _ => 0) 0
      (some (200, missingMoodResponse)) "sunset beach walk" =
      Except.error "KeyError: mood" :=
  ⟨by decide, rfl⟩

/-- Claim C3: for every image-model oracle, random source, keyword list,
palette and count, the compositor returns exactly `count` records, and
every record's source string denotes one of the three defined source
kinds. -/
theorem C3_compositor_total (gen : String → Option String) (rand : Nat → Nat)
    (keywords color_palette : List String) (count : Nat) :
    (generate_multiple_images_with_colors gen rand keywords color_palette count).length =
      count ∧
    ∀ img ∈ generate_multiple_images_with_colors gen rand keywords color_palette count,
      (sourceKindOf img.source).isSome := by
  constructor
  · simp [generate_multiple_images_with_colors]
  · intro img hmem
    simp only [generate_multiple_images_with_colors, List.mem_map] at hmem
    rcases hmem with ⟨i, hi, rfl⟩
    exact generate_ai_image_source_kind gen _ "realistic" (rand i)

/-- Witness for C3_compositor_total: one slot, failing image model. -/
theorem C3_compositor_total_witness :
    (generate_multiple_images_with_colors (fun _ => none) (fun _ => 0)
      ["forest"] [] 1).length = 1 ∧
    (sourceKindOf (((generate_multiple_images_with_colors (fun _ => none) (fun _ => 0)
      ["forest"] [] 1).getD 0 ⟨"", "", "", "", ""⟩).source)).isSome :=
  ⟨(C3_compositor_total (fun _ => none) (fun _ => 0) ["forest"] [] 1).1,
   (C3_compositor_total (fun _ => none) (fun _ => 0) ["forest"] [] 1).2 _ (by decide)⟩

/-- Claim C4: whenever the classifier response is absent (connection error
or any exception), non-200, or unparseable (no opening brace, or JSON
parse failure on the extracted substring), `analyze_mood_with_ai` returns
exactly `analyze_mood_fallback` applied to the same description — for
every description and every parse function. -/
theorem C4_fallback_eq (jl : String → Option JObj) (d : String)
    (resp : Option (Nat × String)) (h : classifierFailed jl resp) :
    analyze_mood_with_ai jl resp d = (analyze_mood_fallback d).toJObj :=
  awai_fallback_eq jl resp d h

/-- Witness for C4_fallback_eq: a 503 response. -/
theorem C4_fallback_eq_witness :
    analyze_mood_with_ai jsonLoadsModel (some (503, "service unavailable")) "calm sea" =
      (analyze_mood_fallback "calm sea").toJObj :=
  C4_fallback_eq jsonLoadsModel "calm sea" (some (503, "service unavailable"))
    (by exact Or.inl (by decide))

/-- Claim C5: the heuristic lower-cases the description, scores each of the
8 labels by counting its keywords occurring as substrings, and picks the
first label attaining the maximal score, defaulting to "modern" when every
score is 0; on "I want a romantic candlelit dinner" it yields mood
"romantic", keywords ["romantic", "candlelit", "dinner"] and the fixed
romantic sentence. -/
theorem C5_heuristic (d : String) :
    (moodMax d = 0 → (analyze_mood_fallback d).mood = "modern") ∧
    (0 < moodMax d →
      some (analyze_mood_fallback d).mood =
        firstAt (moodScore (pyLower d)) (moodMax d) mood_keywords) ∧
    analyze_mood_fallback "I want a romantic candlelit dinner" =
      ⟨"romantic", ["romantic", "candlelit", "dinner"],
       "The dance of love and passion, in harmony with your heart\x27s rhythm",
       "romantic"⟩ := by
  refine ⟨?_, ?_, by decide⟩
  · intro h
    show (pickMax (moodScore (pyLower d)) ("modern", 0) mood_keywords).1 = "modern"
    exact pickMax_fst_of_le _ _ _ (by unfold moodMax at h; omega)
  · intro h
    show some (pickMax (moodScore (pyLower d)) ("modern", 0) mood_keywords).1 =
      firstAt (moodScore (pyLower d)) (moodMax d) mood_keywords
    exact pickMax_fst_of_lt _ _ _ (by unfold moodMax at h; exact h)

/-- Witness for C5_heuristic: an all-zero-score description and a positive
one. -/
theorem C5_heuristic_witness :
    (analyze_mood_fallback "qqq").mood = "modern" ∧
    some (analyze_mood_fallback "a forest walk").mood =
      firstAt (moodScore (pyLower "a forest walk")) (moodMax "a forest walk")
        mood_keywords :=
  ⟨(C5_heuristic "qqq").1 (by decide), (C5_heuristic "a forest walk").2.1 (by decide)⟩

/-- Claim C6: for every mood label (known or not) and every random draw,
the selected palette has exactly 5 colours and is one of that label's 4
predefined variants; an unknown label resolves to the "modern" variants;
and each of the 4 variants is reachable by some draw. -/
theorem C6_palette (m : String) (r : Nat) :
    (selectPalette m r).length = 5 ∧
    selectPalette m r ∈ moodPalettesOf m ∧
    (moodPalettesOf m).length = 4 ∧
    (lookupMood m = none → moodPalettesOf m = modernPalettes) ∧
    (∀ i, i < 4 → selectPalette m i = (moodPalettesOf m).getD i []) := by
  obtain ⟨hlen4, hlen5⟩ := moodPalettesOf_shape m
  have hne : moodPalettesOf m ≠ [] := by
    intro hnil
    rw [hnil] at hlen4
    simp at hlen4
  have hmem : selectPalette m r ∈ moodPalettesOf m := pyChoice_mem _ _ _ hne
  refine ⟨hlen5 _ hmem, hmem, hlen4, ?_, ?_⟩
  · intro h
    unfold moodPalettesOf
    rw [h]
    rfl
  · intro i hi
    unfold selectPalette pyChoice
    rw [hlen4, Nat.mod_eq_of_lt hi]

/-- Witness for C6_palette: the unknown label "gothic" resolves to the
modern variants, and draw 2 yields the third vintage variant. -/
theorem C6_palette_witness :
    moodPalettesOf "gothic" = modernPalettes ∧
    selectPalette "vintage" 2 = (moodPalettesOf "vintage").getD 2 [] :=
  ⟨(C6_palette "gothic" 0).2.2.2.1 (by decide),
   (C6_palette "vintage" 2).2.2.2.2 2 (by decide)⟩

/-- Claim C7: the themed placeholder classifies the prompt's lower-cased
tokens against the 7 category lists, picks the first matching category
(default "nature"), and draws its seed from that category's fixed 5-seed
pool; in the scenario of keywords ["forest", "calm"], a green palette,
count 3 and a failing image model, every result is a nature-themed
placeholder whose URL carries one of nature's 5 seeds. -/
theorem C7_themed (prompt style : String) (r : Nat) :
    (generate_themed_image prompt style r).category =
      some (firstMatchingCategory (splitWsTokens (pyLower prompt))) ∧
    firstMatchingCategory (splitWsTokens (pyLower prompt)) ∈ categoryNames ∧
    (categorySeedsOf (firstMatchingCategory (splitWsTokens (pyLower prompt)))).length = 5 ∧
    (generate_themed_image prompt style r).url ∈
      (categorySeedsOf (firstMatchingCategory (splitWsTokens (pyLower prompt)))).map
        picsumUrl ∧
    (∀ rand : Nat → Nat,
      ∀ img ∈ generate_multiple_images_with_colors (fun _ => none) rand
          ["forest", "calm"] greensPalette 3,
        img.source = "Themed nature image" ∧
          img.url ∈ (categorySeedsOf "nature").map picsumUrl) := by
  have hsel : selectCategory category_map (splitWsTokens (pyLower prompt)) =
      firstMatchingCategory (splitWsTokens (pyLower prompt)) :=
    selectCategory_eq_first _ _
  have hmemcat : firstMatchingCategory (splitWsTokens (pyLower prompt)) ∈ categoryNames := by
    rw [← hsel]
    rcases selectCategory_mem category_map (splitWsTokens (pyLower prompt)) with h | h
    · rw [h]
      decide
    · exact h
  have hseeds : ∀ c ∈ categoryNames, (categorySeedsOf c).length = 5 := by decide
  have hlen : (categorySeedsOf (firstMatchingCategory (splitWsTokens (pyLower prompt)))).length = 5 :=
    hseeds _ hmemcat
  have hne : categorySeedsOf (firstMatchingCategory (splitWsTokens (pyLower prompt))) ≠ [] := by
    intro hnil
    rw [hnil] at hlen
    simp at hlen
  refine ⟨?_, hmemcat, hlen, ?_, ?_⟩
  · have hcat : (generate_themed_image prompt style r).category =
        some (selectCategory category_map (splitWsTokens (pyLower prompt))) := rfl
    rw [hcat, hsel]
  · have hurl : (generate_themed_image prompt style r).url =
        picsumUrl (pyChoice
          (categorySeedsOf (selectCategory category_map (splitWsTokens (pyLower prompt))))
          0 r) := rfl
    rw [hurl, hsel]
    exact List.mem_map_of_mem _ (pyChoice_mem _ _ _ hne)
  · intro rand img hmem
    have h3 : List.range 3 = [0, 1, 2] := rfl
    have hnat : (categorySeedsOf "nature") ≠ [] := by decide
    simp only [generate_multiple_images_with_colors, h3, List.map_cons, List.map_nil,
      List.mem_cons, List.not_mem_nil, or_false] at hmem
    rcases hmem with h | h | h <;> rw [h] <;> constructor
    · rfl
    · exact List.mem_map_of_mem _ (pyChoice_mem _ _ _ hnat)
    · rfl
    · exact List.mem_map_of_mem _ (pyChoice_mem _ _ _ hnat)
    · rfl
    · exact List.mem_map_of_mem _ (pyChoice_mem _ _ _ hnat)

/-- Witness for C7_themed: the first record of the failing-model scenario
run with draw 1 everywhere. -/
theorem C7_themed_witness :
    ((generate_multiple_images_with_colors (fun _ => none) (fun _ => 1)
        ["forest", "calm"] greensPalette 3).getD 0 ⟨"", "", "", "", ""⟩).source =
      "Themed nature image" ∧
    ((generate_multiple_images_with_colors (fun _ => none) (fun _ => 1)
        ["forest", "calm"] greensPalette 3).getD 0 ⟨"", "", "", "", ""⟩).url ∈
      (categorySeedsOf "nature").map picsumUrl :=
  (C7_themed "x" "y" 0).2.2.2.2 (fun _ => 1) _ (by decide)

/-- Claim C8: `get_color_name` returns the table name on an exact match;
otherwise, whenever the normalised input parses to RGB, it returns the
name of a reference entry at minimal squared RGB distance if that minimum
is below the threshold (100 squared), and "" otherwise; in particular
"#FF0000" ↦ "red", "#FE0101" ↦ "red", "#123456" ↦ "". -/
theorem C8_color_name :
    (∀ e ∈ color_map, get_color_name e.1 = e.2) ∧
    get_color_name "#FF0000" = "red" ∧
    get_color_name "#FE0101" = "red" ∧
    get_color_name "#123456" = "" ∧
    (∀ (s : String) (r g b : Int),
      lookupFirst color_map (normalizeHex s) = none →
      parseRGB (normalizeHex s) = some (r, g, b) →
      ((∀ e ∈ color_map, 10000 ≤ dist2 r g b e.1) → get_color_name s = "") ∧
      ((∃ e ∈ color_map, dist2 r g b e.1 < 10000) →
        ∃ e ∈ color_map, get_color_name s = e.2 ∧ dist2 r g b e.1 < 10000 ∧
          ∀ e2 ∈ color_map, dist2 r g b e.1 ≤ dist2 r g b e2.1)) := by
  refine ⟨by decide, by decide, by decide, by decide, ?_⟩
  intro s r g b hlook hparse
  have hred : get_color_name s =
      (match closestAux r g b color_map ("", none) with
       | (closest, some m) => if m < 10000 then closest else ""
       | (_, none) => "") := by
    unfold get_color_name
    rw [hlook, hparse]
  have hsome : ((closestAux r g b color_map ("", none)).2).isSome :=
    closestAux_isSome_start r g b color_map ("", none)
      (Or.inl ⟨("#FF0000", "red"), by decide, by decide⟩)
  rcases hres : closestAux r g b color_map ("", none) with ⟨best, mo⟩
  cases mo with
  | none =>
      rw [hres] at hsome
      exact absurd hsome (by simp)
  | some m =>
      have hval : get_color_name s = if m < 10000 then best else "" := by
        rw [hred, hres]
      have hle := (closestAux_le r g b color_map ("", none) m (by rw [hres])).1
      rcases closestAux_attain r g b color_map ("", none) m (by rw [hres]) with
        ⟨_, hbad⟩ | ⟨e, he, hbest, hm⟩
      · exact absurd hbad (by simp)
      · have hbest' : best = e.2 := by rw [hres] at hbest; exact hbest
        constructor
        · intro hall
          have hnot : ¬ m < 10000 := by
            have := hall e he
            omega
          rw [hval, if_neg hnot]
        · rintro ⟨e2, he2, hd2⟩
          have hm10 : m < 10000 := by
            have := hle e2 he2 (color_map_guard e2 he2)
            omega
          rw [hval, if_pos hm10]
          refine ⟨e, he, hbest', by omega, fun e3 he3 => ?_⟩
          have := hle e3 he3 (color_map_guard e3 he3)
          omega

/-- Witness for C8_color_name: the exact match "#00FF00" and the nearest
match "#FE0101". -/
theorem C8_color_name_witness :
    get_color_name "#00FF00" = "green" ∧
    (∃ e ∈ color_map, get_color_name "#FE0101" = e.2 ∧ dist2 254 1 1 e.1 < 10000 ∧
      ∀ e2 ∈ color_map, dist2 254 1 1 e.1 ≤ dist2 254 1 1 e2.1) :=
  ⟨C8_color_name.1 ("#00FF00", "green") (by decide),
   (C8_color_name.2.2.2.2 "#FE0101" 254 1 1 (by decide) (by decide)).2 (by decide)⟩

/-- Claim C9: every successful `/api/analyze-mood` response carries a
`color_palette` drawn from the 32 predefined variants (8 moods × 4),
whatever mood string the classifier produced — the palette lookup clamps
unknown moods to the "modern" variants. -/
theorem C9_response_palette (jl : String → Option JObj) (gen : String → Option String)
    (rand : Nat → Nat) (rPal : Nat) (resp : Option (Nat × String)) (d : String)
    (out : MoodBoardResponse)
    (h : analyze_mood jl gen rand rPal resp d = Except.ok out) :
    out.color_palette ∈ allPaletteVariants ∧ allPaletteVariants.length = 32 := by
  refine ⟨?_, by decide⟩
  simp only [analyze_mood] at h
  split at h
  · simp at h
  · simp at h
  · rename_i mood heq
    split at h
    · simp at h
    · split at h
      · simp at h
      · simp at h
      · injection h with h2
        rw [← h2]
        show selectPalette mood rPal ∈ allPaletteVariants
        refine moodPalettesOf_sub_all mood _ (pyChoice_mem _ _ _ ?_)
        intro hnil
        have := (moodPalettesOf_shape mood).1
        rw [hnil] at this
        simp at this

/-- A concrete successful run of the handler, used by the C9 witness. -/
def sampleRun : Except String MoodBoardResponse :=
  analyze_mood jsonLoadsModel (fun _ => some "IMG") (fun _ => 0) 0 none "calm sea"

/-- The payload of `sampleRun`. -/
def sampleResponse : MoodBoardResponse :=
  match sampleRun with
  | Except.ok o => o
  | Except.error _ => ⟨[], [], "", []⟩

/-- Witness for C9_response_palette on the concrete run `sampleRun`. -/
theorem C9_response_palette_witness :
    sampleResponse.color_palette ∈ allPaletteVariants ∧ allPaletteVariants.length = 32 :=
  C9_response_palette jsonLoadsModel (fun _ => some "IMG") (fun _ => 0) 0 none "calm sea"
    sampleResponse rfl

/-- Claim C10, counterexample: an input without a leading `#` is not
rejected — `get_color_name` prepends `#` and may return a name, so the
claimed "malformed input yields the empty string" fails for the
"no leading #" category. -/
theorem C10_no_hash_cex : get_color_name "FF0000" = "red" ∧ ("red" : String) ≠ "" :=
  ⟨by decide, by decide⟩

/-- Claim C10, amended: `get_color_name` is total and always returns either
"" or a name from the reference table; it depends only on the upper-cased
input (so "#ff0000" and "#FF0000" agree, both giving "red"); and when the
normalised input has no exact match and its RGB parse fails (too short,
or non-hex digits), the exception is caught and "" is returned.  An input
lacking a leading `#` is, however, normalised by prepending `#`, not
rejected. -/
theorem C10_color_safety (s : String) :
    get_color_name (pyUpper s) = get_color_name s ∧
    (get_color_name s = "" ∨ get_color_name s ∈ color_map.map (·.2)) ∧
    (lookupFirst color_map (normalizeHex s) = none →
      parseRGB (normalizeHex s) = none → get_color_name s = "") ∧
    get_color_name "#ff0000" = "red" ∧
    get_color_name "#ff0000" = get_color_name "#FF0000" ∧
    get_color_name "#FF" = "" ∧
    get_color_name "#GGGGGG" = "" := by
  refine ⟨get_color_name_upper s, get_color_name_range s, ?_, by decide, by decide,
    by decide, by decide⟩
  intro hlook hparse
  unfold get_color_name
  rw [hlook, hparse]

/-- Witness for C10_color_safety at the parse-failing input "zz". -/
theorem C10_color_safety_witness :
    get_color_name "zz" = "" ∧
    (get_color_name "zz" = "" ∨ get_color_name "zz" ∈ color_map.map (·.2)) :=
  ⟨(C10_color_safety "zz").2.2.1 (by decide) (by decide), (C10_color_safety "zz").2.1⟩

end MoodBoard
